import Mathlib

/-!
Verification development for the MerkelBackup core: a shallow embedding of the
client backup pipeline (src/client/backup.rs) and the server request handlers
(src/server/handler.rs), together with theorems settling the specification
claims about them.

Conventions of the embedding:
* Rust `String` is Lean `String`; Rust byte-length `String::len` is `rlen`
  (length of the UTF-8 encoding).  Rust `&[u8]` is `List Nat`.
* SQLite tables become association lists with the table's UNIQUE key enforced
  by `REPLACE`-style updates (`updateRemote`, `replaceDelete`, ...).
* Network and cryptography are oracles carried in `Env`: `seedHash` stands for
  Blake2b-256 over `seed || plaintext`, `headStatus`/`putStatus` for the HTTP
  status the server answers, `encrypt` for the ChaCha20 keystream application,
  `nonce` for the 12 random bytes, `now` for `strftime('%s','now')`.
* Side effects a run performs (cache queries, hashing, HEAD/PUT requests) are
  returned as an explicit `List Eff` log so that claims of the form "no network
  request is made" are statable.
-/

namespace MerkelBackup

/-- UTF-8 encoding of a string as a list of byte values.  Models Rust
`str::as_bytes`. -/
def strBytes (s : String) : List Nat :=
  (s.data.map (fun c =>
    let n := c.toNat
    if n < 128 then [n]
    else if n < 2048 then [192 + n / 64, 128 + n % 64]
    else if n < 65536 then [224 + n / 4096, 128 + n / 64 % 64, 128 + n % 64]
    else [240 + n / 262144, 128 + n / 4096 % 64, 128 + n / 64 % 64, 128 + n % 64])).flatten

/-- Rust `String::len`: the byte length of the UTF-8 encoding. -/
def rlen (s : String) : Nat := (strBytes s).length

/-- Rust `str::split(sep)` for a single-character separator: splits at every
occurrence, keeping empty pieces, and yields one (empty) piece for the empty
string. -/
def splitCharAux (sep : Char) : List Char → List Char → List String
  | [], acc => [String.mk acc.reverse]
  | c :: rest, acc =>
    if c = sep then String.mk acc.reverse :: splitCharAux sep rest []
    else splitCharAux sep rest (c :: acc)

/-- Rust `str::split` on one character. -/
def splitChar (sep : Char) (s : String) : List String := splitCharAux sep s.data []

/-! ## Client side: src/client/backup.rs -/

/-- `CHUNK_SIZE` from src/client/backup.rs line 17. -/
def CHUNK_SIZE : Nat := 64 * 1024 * 1024

/-- The client error type (src/client, `Error`); only the variants the
embedded functions can produce are carried. -/
inductive Err where
  | BadPath (p : String)
  | HttpStatus (code : Nat)
  | MissingRow
  | Msg (s : String)
deriving DecidableEq

/-- Result alphabet of `has_chunk` (src/client/backup.rs lines 34-39). -/
inductive HasChunkResult where
  | YesCached
  | Yes
  | No
deriving DecidableEq

/-- Observable side effects of a client run: local-cache queries, hashing of a
chunk, and the two kinds of network request. -/
inductive Eff where
  | queryRemote (chunk : String)
  | queryFiles (path : String)
  | hashed (content : List Nat)
  | headReq (chunk : String)
  | putReq (chunk : String) (body : List Nat)
deriving DecidableEq

/-- Is the effect a network request (HEAD or PUT)? -/
def Eff.isNetwork : Eff → Bool
  | .headReq _ => true
  | .putReq _ _ => true
  | _ => false

/-- A run's external collaborators: hashing, encryption, randomness, the HTTP
server's answers, and the wall clock. -/
structure Env where
  /-- Blake2b-256 over `seed || content`, rendered as hex (backup.rs 81-84). -/
  seedHash : List Nat → String
  /-- ChaCha20 keystream application under the bucket key (backup.rs 101-102):
  arguments are the nonce and the plaintext. -/
  encrypt : List Nat → List Nat → List Nat
  /-- The 12 random nonce bytes drawn for an upload (backup.rs 99). -/
  nonce : List Nat
  /-- Status code the server answers to `HEAD /chunks/{bucket}/{hash}`. -/
  headStatus : String → Nat
  /-- Status code the server answers to `PUT /chunks/{bucket}/{hash}`. -/
  putStatus : String → Nat
  /-- `strftime('%s','now')` at the time of the run's next SQL statement. -/
  now : Int

/-- A row of the client cache table `files(path UNIQUE, size, mtime, chunks)`. -/
structure FileRow where
  path : String
  size : Nat
  mtime : Int
  chunks : String
deriving DecidableEq

/-- The mutable client state: the two cache tables, the delete epoch fetched at
run start, and the scan/transfer bookkeeping (struct `State`, backup.rs 19-32). -/
structure ClientState where
  /-- table `remote(chunk UNIQUE, time)` -/
  remote : List (String × Int)
  /-- table `files(path UNIQUE, size, mtime, chunks)` -/
  files : List FileRow
  /-- `last_delete`, fetched from `GET /status/{bucket}` once per run -/
  lastDelete : Int
  /-- `config.recheck` -/
  recheck : Bool
  /-- scan pass (`true`) or transfer pass (`false`) -/
  scan : Bool
  /-- `transfer_bytes` accumulated during the scan pass -/
  transferBytes : Nat
  /-- progress-bar position, `none` when no bar is attached -/
  progress : Option Nat
deriving DecidableEq

/-- `SELECT count(*) FROM remote WHERE chunk = ? AND time > ?` (backup.rs 388-389,
queried in `has_chunk` with `?2 = last_delete`). -/
def remoteCount (st : ClientState) (chunk : String) : Nat :=
  (st.remote.filter (fun r => r.1 == chunk && decide (st.lastDelete < r.2))).length

/-- `REPLACE INTO remote VALUES (?, strftime('%s','now'))` (backup.rs 390-391). -/
def updateRemote (st : ClientState) (chunk : String) (now : Int) : ClientState :=
  { st with remote := (chunk, now) :: st.remote.filter (fun r => r.1 ≠ chunk) }

/-- `REPLACE INTO files (path, size, mtime, chunks) VALUES (?, ?, ?, ?)`
(backup.rs 394-395). -/
def updateFiles (st : ClientState) (path : String) (size : Nat) (mtime : Int)
    (chunks : String) : ClientState :=
  { st with files := ⟨path, size, mtime, chunks⟩ :: st.files.filter (fun f => f.path ≠ path) }

/-- `SELECT chunks FROM files WHERE path = ? AND size = ? AND mtime = ?`
(backup.rs 392-393). -/
def filesLookup (st : ClientState) (path : String) (size : Nat) (mtime : Int) :
    Option String :=
  (st.files.find? (fun f => f.path == path && f.size == size && f.mtime == mtime)).map
    (fun f => f.chunks)

/-- `has_chunk` (backup.rs 41-77): remote-cache probe filtered by the delete
epoch, the small-chunk shortcut, then `HEAD /chunks/{bucket}/{hash}`. -/
def has_chunk (env : Env) (st : ClientState) (chunk : String) (size : Option Nat) :
    Except Err (HasChunkResult × List Eff) :=
  let cnt := remoteCount st chunk
  if cnt = 1 then .ok (.YesCached, [.queryRemote chunk])
  else if (size.map (fun s => decide (s < 1024 * 16))).getD false then
    -- "For small chunks it is quicker to just reupload" (backup.rs 52-57)
    .ok (.No, [.queryRemote chunk])
  else
    match env.headStatus chunk with
    | 200 => .ok (.Yes, [.queryRemote chunk, .headReq chunk])
    | 404 => .ok (.No, [.queryRemote chunk, .headReq chunk])
    | code => .error (.HttpStatus code)

/-- `push_chunk` (backup.rs 79-140): hash, `has_chunk`, encrypt-and-PUT when
absent (with 409 CONFLICT benign), refresh the `remote` row unless the cache
answered, advance progress by the plaintext length. -/
def push_chunk (env : Env) (st : ClientState) (content : List Nat) :
    Except Err (String × ClientState × List Eff) :=
  let hash := env.seedHash content
  match has_chunk env st hash (some content.length) with
  | .error e => .error e
  | .ok (hc, effs) =>
    let effs := Eff.hashed content :: effs
    match
      (if hc = HasChunkResult.No then
        let crypted := env.nonce ++ env.encrypt env.nonce content
        match env.putStatus hash with
        | 200 => Except.ok [Eff.putReq hash crypted]
        | 409 => Except.ok [Eff.putReq hash crypted]
        | code => Except.error (Err.HttpStatus code)
      else Except.ok ([] : List Eff)) with
    | .error e => .error e
    | .ok putEffs =>
      let st := if hc ≠ HasChunkResult.YesCached then updateRemote st hash env.now else st
      let st := { st with progress := st.progress.map (fun p => p + content.length) }
      .ok (hash, st, effs ++ putEffs)

/-- The fast-path loop of `backup_file` (backup.rs 169-175): run `has_chunk`
with no size on each cached chunk hash, stopping at the first `No`. -/
def checkCachedChunks (env : Env) (st : ClientState) :
    List String → Except Err (Bool × List Eff)
  | [] => .ok (true, [])
  | c :: rest =>
    match has_chunk env st c none with
    | .error e => .error e
    | .ok (.No, effs) => .ok (false, effs)
    | .ok (_, effs) =>
      match checkCachedChunks env st rest with
      | .error e => .error e
      | .ok (good, effs2) => .ok (good, effs ++ effs2)

/-- The read loop of `backup_file` (backup.rs 190-214): fill a buffer of `b`
bytes from the file, stop after the first short window. -/
def readChunks (b : Nat) (data : List Nat) : List (List Nat) :=
  if h : data = [] ∨ b = 0 then [] else data.take b :: readChunks b (data.drop b)
termination_by data.length
decreasing_by
  simp only [not_or] at h
  have hb : 0 < b := Nat.pos_of_ne_zero h.2
  have hd : 0 < data.length := List.length_pos.2 h.1
  simpa using Nat.sub_lt hd hb

/-- The upload loop of `backup_file` (backup.rs 193-214): push each window and
accumulate a comma-separated hash list. -/
def pushFileChunks (env : Env) :
    List (List Nat) → ClientState → String → List Eff →
    Except Err (String × ClientState × List Eff)
  | [], st, acc, effs => .ok (acc, st, effs)
  | c :: rest, st, acc, effs =>
    match push_chunk env st c with
    | .error e => .error e
    | .ok (h, st2, effs2) =>
      pushFileChunks env rest st2 ((if acc.isEmpty then acc else acc ++ ",") ++ h)
        (effs ++ effs2)

/-- The scan-mode placeholder for a file of `size > 0` bytes (backup.rs 184):
`"_".repeat((65 * (size + CHUNK_SIZE - 1) / CHUNK_SIZE - 1) as usize)`.
Note the Rust expression parenthesizes as `((65 * (size + C - 1)) / C) - 1`. -/
def scanPlaceholder (size : Nat) : String :=
  String.mk (List.replicate (65 * (size + CHUNK_SIZE - 1) / CHUNK_SIZE - 1) '_')

/-- `backup_file` (backup.rs 142-225).  `data` are the bytes the reads deliver;
the progress-bar message (display only) is omitted. -/
def backup_file (env : Env) (st : ClientState) (path : String) (size : Nat)
    (mtime : Int) (data : List Nat) : Except Err (String × ClientState × List Eff) :=
  if size = 0 then .ok ("empty", st, [])
  else
    match
      (if st.recheck then Except.ok ((none : Option String), ([] : List Eff))
       else
        match filesLookup st path size mtime with
        | none => Except.ok (none, [Eff.queryFiles path])
        | some chunks =>
          match checkCachedChunks env st (splitChar ',' chunks) with
          | .error e => Except.error e
          | .ok (good, effs) =>
            Except.ok (if good then some chunks else none, Eff.queryFiles path :: effs)) with
    | .error e => .error e
    | .ok (some chunks, effs) => .ok (chunks, st, effs)
    | .ok (none, effs) =>
      if st.scan then
        .ok (scanPlaceholder size,
          { st with transferBytes := st.transferBytes + size }, effs)
      else
        match pushFileChunks env (readChunks (min size CHUNK_SIZE) data) st "" effs with
        | .error e => .error e
        | .ok (chunks, st2, effs2) =>
          .ok (chunks, updateFiles st2 path size mtime chunks, effs2)

/-- `EType` (crate::shared).  The spec fixes the alphabet `{Dir, File, Link}`. -/
inductive EType where
  | Dir
  | File
  | Link
deriving DecidableEq

/-- Modelled from the spec: the `Display` impl of `EType` lives in shared.rs,
which is not under src/; the spec fixes only the alphabet `{Dir, File, Link}`,
so the rendering is taken as the lowercase constructor name. -/
def EType.render : EType → String
  | .Dir => "dir"
  | .File => "file"
  | .Link => "link"

/-- Modelled from the spec: the derived `Ord` of `EType` (shared.rs, not under
src/) is taken in the spec's listing order `{Dir, File, Link}`. -/
def EType.idx : EType → Nat
  | .Dir => 0
  | .File => 1
  | .Link => 2

/-- `DirEnt` (backup.rs 227-239), fields in declaration order. -/
structure DirEnt where
  name : String
  etype : EType
  content : String
  size : Nat
  mode : Nat
  uid : Nat
  gid : Nat
  mtime : Int
  atime : Int
  ctime : Int
deriving DecidableEq

/-- The record one entry contributes to the directory serialization
(backup.rs 249-261): NUL-separated fields in the order
name, etype, size, content, mode, uid, gid, mtime, atime, ctime. -/
def entRecord (e : DirEnt) : String :=
  e.name ++ "\x00" ++ e.etype.render ++ "\x00" ++ toString e.size ++ "\x00" ++
  e.content ++ "\x00" ++ toString e.mode ++ "\x00" ++ toString e.uid ++ "\x00" ++
  toString e.gid ++ "\x00" ++ toString e.mtime ++ "\x00" ++ toString e.atime ++ "\x00" ++
  toString e.ctime

/-- The comparison key of the derived `Ord` on `DirEnt` (backup.rs 227):
lexicographic over the fields in declaration order. -/
def DirEnt.key (e : DirEnt) :
    String ×ₗ (Nat ×ₗ (String ×ₗ (Nat ×ₗ (Nat ×ₗ (Nat ×ₗ (Nat ×ₗ (Int ×ₗ (Int ×ₗ Int)))))))) :=
  toLex (e.name, toLex (e.etype.idx, toLex (e.content, toLex (e.size, toLex (e.mode,
    toLex (e.uid, toLex (e.gid, toLex (e.mtime, toLex (e.atime, e.ctime)))))))))

/-- The derived total order on `DirEnt` used by `entries.sort()`. -/
def entLe (a b : DirEnt) : Prop := a.key ≤ b.key

instance : DecidableRel entLe := fun a b => inferInstanceAs (Decidable (a.key ≤ b.key))

instance : IsTotal DirEnt entLe := ⟨fun a b => le_total a.key b.key⟩

instance : IsTrans DirEnt entLe := ⟨fun _ _ _ h h2 => le_trans h h2⟩

/-- `entries.sort()` (backup.rs 242): since `DirEnt`'s derived order is total
and antisymmetric (the key lists every field), the sorted result is the unique
sorted permutation; any correct sort computes it. -/
def sortEnts (l : List DirEnt) : List DirEnt := List.insertionSort entLe l

/-- The string `push_ents` accumulates (backup.rs 242-262): entries sorted,
records joined with two NUL bytes. -/
def push_ents_string (entries : List DirEnt) : String :=
  (sortEnts entries).foldl
    (fun ans e => (if ans.isEmpty then ans else ans ++ "\x00\x00") ++ entRecord e) ""

/-- Straight-line form of the directory serialization: records of an (already
sorted) entry list joined with two NUL bytes. -/
def serializeEnts : List DirEnt → String
  | [] => ""
  | [e] => entRecord e
  | e :: rest => entRecord e ++ "\x00\x00" ++ serializeEnts rest

/-- `push_ents` (backup.rs 241-267): serialize, push the bytes as a chunk,
return the hash and the byte length of the serialization. -/
def push_ents (env : Env) (st : ClientState) (entries : List DirEnt) :
    Except Err ((String × Nat) × ClientState × List Eff) :=
  let ans := push_ents_string entries
  match push_chunk env st (strBytes ans) with
  | .error e => .error e
  | .ok (h, st2, effs) => .ok ((h, (strBytes ans).length), st2, effs)

/-- `bytes_ents` (backup.rs 269-278): the scan-mode size estimate of a
directory serialization. -/
def bytes_ents (entries : List DirEnt) : Nat :=
  entries.foldl
    (fun ans e => (if ans ≠ 0 then ans + 1 else ans) + rlen e.name + 25 + rlen e.content) 0

/-- The tail of `backup_folder` (backup.rs 348-354) after the child entries
have been collected: in scan mode a literal 32-character zero placeholder and
the `bytes_ents` estimate, otherwise `push_ents`.  (The directory walking
itself is filesystem I/O and enters only through the `entries` argument.) -/
def backup_folder_finish (env : Env) (st : ClientState) (entries : List DirEnt) :
    Except Err ((String × Nat) × ClientState × List Eff) :=
  if st.scan then
    let size := bytes_ents entries
    .ok (("00000000000000000000000000000000", size),
      { st with transferBytes := st.transferBytes + size }, [])
  else
    push_ents env st entries

/-- The serialization order asserted by the specification (refinement
comparison only — this follows the spec's words, not the source): per entry the
fields name, etype, content, size, mode, uid, gid, mtime, atime, ctime. -/
def claimOrderRecord (e : DirEnt) : String :=
  e.name ++ "\x00" ++ e.etype.render ++ "\x00" ++ e.content ++ "\x00" ++
  toString e.size ++ "\x00" ++ toString e.mode ++ "\x00" ++ toString e.uid ++ "\x00" ++
  toString e.gid ++ "\x00" ++ toString e.mtime ++ "\x00" ++ toString e.atime ++ "\x00" ++
  toString e.ctime

/-- Directory serialization as the specification words it (refinement
comparison only): sorted entries, spec field order, the same separators. -/
def claimOrderSerialize (entries : List DirEnt) : String :=
  (sortEnts entries).foldl
    (fun ans e => (if ans.isEmpty then ans else ans ++ "\x00\x00") ++ claimOrderRecord e) ""

/-! ## Server side: src/server/handler.rs -/

/-- Modelled from the spec: `AccessType` is declared in config.rs (not under
src/); the spec fixes the total order `Get < Put < Delete`, higher includes
lower. -/
inductive AccessType where
  | Get
  | Put
  | Delete
deriving DecidableEq

/-- Numeric rank realizing the order `Get < Put < Delete`. -/
def AccessType.rank : AccessType → Nat
  | .Get => 0
  | .Put => 1
  | .Delete => 2

/-- A `(name, password, access_level)` tuple from the server configuration. -/
structure User where
  name : String
  password : String
  access_level : AccessType
deriving DecidableEq

/-- The pieces of the server configuration the handlers consult.  `SMALL_SIZE`
is declared in config.rs (not under src/), so its value stays a parameter. -/
structure ServerConfig where
  users : List User
  dataDir : String
  smallSize : Nat

/-- An HTTP response: status code, diagnostic body text, and — for chunk
fetches — the returned bytes. -/
structure Resp where
  status : Nat
  body : String
  bytes : List Nat
deriving DecidableEq

/-- `ok_message` (handler.rs 45-53). -/
def okMessage (message : Option String) : Resp := ⟨200, message.getD "", []⟩

/-- `unauthorized_message` (handler.rs 56-65). -/
def unauthorizedMessage : Resp := ⟨401, "", []⟩

/-- `check_auth` (handler.rs 70-95): `true` means authorized.  The request's
`Authorization` header is modelled as the decoded Basic credentials; equality
with `Basic base64(name:password)` is equality of the `(name, password)` pair
since base64 of `name:password` is injective. -/
def check_auth (users : List User) (auth : Option (String × String))
    (level : AccessType) : Bool :=
  match auth with
  | none => false
  | some (n, p) =>
    users.any (fun u =>
      u.name == n && u.password == p && decide (level.rank ≤ u.access_level.rank))

/-- `check_hash` (handler.rs 98-112): exactly 64 bytes, every character a
lowercase hex digit. -/
def check_hash (name : String) : Bool :=
  rlen name == 64 &&
    name.data.all (fun c => ('0' ≤ c && c ≤ '9') || ('a' ≤ c && c ≤ 'f'))

/-- `chunk_path` (handler.rs 114-122). -/
def chunk_path (dataDir bucket chunk : String) : String :=
  dataDir ++ "/data/" ++ bucket ++ "/" ++ (chunk.take 2) ++ "/" ++ (chunk.drop 2)

/-- A row of the server table `chunks(bucket, hash, size, time, content?)`,
unique on `(bucket, hash)`; `content = none` means external (on-disk) storage. -/
structure ChunkRow where
  bucket : String
  hash : String
  size : Nat
  time : Int
  content : Option (List Nat)
deriving DecidableEq

/-- A row of the server table `roots(id, bucket, host, time, hash)`. -/
structure RootRow where
  id : Nat
  bucket : String
  host : String
  time : Int
  hash : String
deriving DecidableEq

/-- The server's persistent state: the three tables and the external-file
store keyed by path. -/
structure ServerState where
  chunks : List ChunkRow
  deletes : List (String × Int)
  roots : List RootRow
  disk : List (String × List Nat)
deriving DecidableEq

/-- `SELECT ... FROM chunks WHERE bucket=? AND hash=?`. -/
def chunkLookup (st : ServerState) (bucket hash : String) : Option ChunkRow :=
  st.chunks.find? (fun r => r.bucket == bucket && r.hash == hash)

/-- `REPLACE INTO deletes VALUES (?, strftime('%s','now'))` (handler.rs 362-369):
`deletes` is unique on bucket. -/
def replaceDelete (deletes : List (String × Int)) (bucket : String) (now : Int) :
    List (String × Int) :=
  (bucket, now) :: deletes.filter (fun d => d.1 ≠ bucket)

/-- `SELECT time FROM deletes WHERE bucket=?`, defaulting to 0 when no row
(handler.rs 523-532). -/
def statusTime (st : ServerState) (bucket : String) : Int :=
  ((st.deletes.find? (fun d => d.1 == bucket)).map (fun d => d.2)).getD 0

/-- `handle_get_chunk` (handler.rs 232-312), also serving HEAD: auth level
`Put` for HEAD and `Get` for GET, identifier validation, row lookup, inline or
external content. -/
def handle_get_chunk (cfg : ServerConfig) (auth : Option (String × String))
    (bucket chunk : String) (st : ServerState) (head : Bool) : Resp :=
  if !(check_auth cfg.users auth (if head then AccessType.Put else AccessType.Get)) then
    unauthorizedMessage
  else if !(check_hash bucket) then ⟨400, "Bad bucket", []⟩
  else if !(check_hash chunk) then ⟨400, "Bad chunk", []⟩
  else
    match chunkLookup st bucket chunk with
    | none => ⟨404, "Not found", []⟩
    | some row =>
      if head then ⟨200, "", []⟩
      else
        match row.content with
        | some c => ⟨200, "", c⟩
        | none =>
          match (st.disk.find? (fun f => f.1 == chunk_path cfg.dataDir bucket chunk)) with
          | some f => ⟨200, "", f.2⟩
          | none => ⟨500, "Chunk missing", []⟩

/-- `handle_put_chunk` (handler.rs 125-229): auth level `Put`, identifier
validation, 409 on duplicate, 400 past 1 GiB, inline storage below
`SMALL_SIZE`, otherwise an external file plus a row without content.  The
write-temp-then-rename mechanics collapse to their net effect. -/
def handle_put_chunk (cfg : ServerConfig) (auth : Option (String × String))
    (bucket chunk : String) (body : List Nat) (now : Int) (st : ServerState) :
    Resp × ServerState :=
  if !(check_auth cfg.users auth AccessType.Put) then (unauthorizedMessage, st)
  else if !(check_hash bucket) then (⟨400, "Bad bucket", []⟩, st)
  else if !(check_hash chunk) then (⟨400, "Bad chunk", []⟩, st)
  else if (chunkLookup st bucket chunk).isSome then (⟨409, "Already there", []⟩, st)
  else if body.length > 1024 * 1024 * 1024 then (⟨400, "Content too large", []⟩, st)
  else if body.length < cfg.smallSize then
    (okMessage none,
      { st with chunks := st.chunks ++ [⟨bucket, chunk, body.length, now, some body⟩] })
  else
    (okMessage none,
      { st with
        chunks := st.chunks ++ [⟨bucket, chunk, body.length, now, none⟩],
        disk := (chunk_path cfg.dataDir bucket chunk, body) :: st.disk })

/-- `do_delete_chunks` (handler.rs 314-377): empty list returns 200 untouched;
otherwise unlink the external files of the hit rows (tolerating absence),
delete the rows, REPLACE the bucket's delete epoch, and answer 404 when the
affected row count differs from the requested count. -/
def do_delete_chunks (cfg : ServerConfig) (bucket : String) (chunkList : List String)
    (now : Int) (st : ServerState) : Resp × ServerState :=
  if chunkList.isEmpty then (okMessage none, st)
  else
    let hit := st.chunks.filter (fun r => r.bucket == bucket && chunkList.contains r.hash)
    let count := hit.length
    let st2 : ServerState :=
      { st with
        chunks := st.chunks.filter
          (fun r => !(r.bucket == bucket && chunkList.contains r.hash)),
        deletes := replaceDelete st.deletes bucket now,
        disk := st.disk.filter (fun f =>
          !(hit.any (fun r =>
            r.content.isNone && f.1 == chunk_path cfg.dataDir bucket r.hash))) }
    if count ≠ chunkList.length then (⟨404, "Missing chunk", []⟩, st2)
    else (okMessage none, st2)

/-- `handle_delete_chunks` (handler.rs 405-438): auth level `Delete`, bucket
validation, 400 past 256 MiB, split the body on NUL, validate every piece, and
delegate to `do_delete_chunks`.  The body is carried as the decoded UTF-8
string (a non-UTF-8 body, rejected 400 in the source, is not modelled). -/
def handle_delete_chunks (cfg : ServerConfig) (auth : Option (String × String))
    (bucket : String) (body : String) (now : Int) (st : ServerState) :
    Resp × ServerState :=
  if !(check_auth cfg.users auth AccessType.Delete) then (unauthorizedMessage, st)
  else if !(check_hash bucket) then (⟨400, "Bad bucket", []⟩, st)
  else if rlen body ≥ 1024 * 1024 * 256 then (⟨400, "Too much data", []⟩, st)
  else
    let chunks := splitChar (Char.ofNat 0) body
    if !(chunks.all check_hash) then (⟨400, "Bad bucket", []⟩, st)
    else do_delete_chunks cfg bucket chunks now st

/-- `handle_get_status` (handler.rs 508-534): auth level `Put`, bucket
validation, then the bucket's delete epoch as decimal text (0 when none). -/
def handle_get_status (cfg : ServerConfig) (auth : Option (String × String))
    (bucket : String) (st : ServerState) : Resp :=
  if !(check_auth cfg.users auth AccessType.Put) then unauthorizedMessage
  else if !(check_hash bucket) then ⟨400, "Bad bucket", []⟩
  else ⟨200, toString (statusTime st bucket), []⟩

/-- `handle_put_root` (handler.rs 576-626): auth level `Put`, bucket
validation, 400 when the host segment contains a NUL byte (before the body is
read), 400 past 10 MiB, UTF-8 decode (`decode` stands for
`String::from_utf8`), hash validation of the body, then append a root row. -/
def handle_put_root (cfg : ServerConfig) (auth : Option (String × String))
    (bucket host : String) (body : List Nat) (decode : List Nat → Option String)
    (now : Int) (newId : Nat) (st : ServerState) : Resp × ServerState :=
  if !(check_auth cfg.users auth AccessType.Put) then (unauthorizedMessage, st)
  else if !(check_hash bucket) then (⟨400, "Bad bucket", []⟩, st)
  else if host.data.contains (Char.ofNat 0) then (⟨400, "Bad host name", []⟩, st)
  else if body.length > 1024 * 1024 * 10 then (⟨400, "Content too long", []⟩, st)
  else
    match decode body with
    | none => (⟨400, "Bad bucket", []⟩, st)
    | some s =>
      if !(check_hash s) then (⟨400, "Bad bucket", []⟩, st)
      else
        (okMessage none,
          { st with roots := st.roots ++ [⟨newId, bucket, host, now, s⟩] })

/-! ## Common material for the theorems -/

instance {ε α : Type} [DecidableEq ε] [DecidableEq α] : DecidableEq (Except ε α) :=
  fun a b =>
    match a, b with
    | .error e, .error f =>
      if h : e = f then isTrue (by rw [h]) else isFalse (fun hc => h (by cases hc; rfl))
    | .error _, .ok _ => isFalse (fun hc => Except.noConfusion hc)
    | .ok _, .error _ => isFalse (fun hc => Except.noConfusion hc)
    | .ok x, .ok y =>
      if h : x = y then isTrue (by rw [h]) else isFalse (fun hc => h (by cases hc; rfl))

theorem entRecord_length_pos (e : DirEnt) : 0 < (entRecord e).length := by
  have h1 : ("\x00" : String).length = 1 := rfl
  simp [entRecord, String.length_append, h1]

theorem entRecord_ne_empty (e : DirEnt) : entRecord e ≠ "" := by
  intro hcon
  have := entRecord_length_pos e
  rw [hcon] at this
  simp at this


/-- The per-entry suffix an already nonempty accumulator receives. -/
def prefixRecords : List DirEnt → String
  | [] => ""
  | e :: rest => "\x00\x00" ++ entRecord e ++ prefixRecords rest

theorem isEmpty_false_of_length_pos (s : String) (hl : 0 < s.length) :
    s.isEmpty = false := by
  rcases h : s.isEmpty with _ | _
  · rfl
  · have h2 := (String.isEmpty_iff _).1 h
    rw [h2] at hl
    exact absurd hl (by decide)

theorem entRecord_isEmpty_false (e : DirEnt) : (entRecord e).isEmpty = false :=
  isEmpty_false_of_length_pos _ (entRecord_length_pos e)

theorem foldl_push_records (l : List DirEnt) (acc : String) (hacc : acc.isEmpty = false) :
    l.foldl (fun ans e => (if ans.isEmpty then ans else ans ++ "\x00\x00") ++ entRecord e) acc
      = acc ++ prefixRecords l := by
  induction l generalizing acc with
  | nil => simp [prefixRecords]
  | cons e rest ih =>
    have hstep : (if acc.isEmpty then acc else acc ++ "\x00\x00") ++ entRecord e
        = acc ++ ("\x00\x00" ++ entRecord e) := by
      rw [hacc]
      simp [String.append_assoc]
    have hne : ((acc ++ ("\x00\x00" ++ entRecord e))).isEmpty = false := by
      apply isEmpty_false_of_length_pos
      rw [String.length_append, String.length_append]
      have := entRecord_length_pos e
      omega
    calc (e :: rest).foldl _ acc
        = rest.foldl _ (acc ++ ("\x00\x00" ++ entRecord e)) := by
          simp only [List.foldl_cons, hstep]
      _ = acc ++ ("\x00\x00" ++ entRecord e) ++ prefixRecords rest := ih _ hne
      _ = acc ++ prefixRecords (e :: rest) := by
          simp [prefixRecords, String.append_assoc]

theorem serializeEnts_cons_eq (e : DirEnt) (rest : List DirEnt) :
    serializeEnts (e :: rest) = entRecord e ++ prefixRecords rest := by
  induction rest generalizing e with
  | nil => simp [serializeEnts, prefixRecords]
  | cons f rest2 ih =>
    show entRecord e ++ "\x00\x00" ++ serializeEnts (f :: rest2) = _
    rw [ih]
    simp [prefixRecords, String.append_assoc]

theorem push_ents_string_eq (entries : List DirEnt) :
    push_ents_string entries = serializeEnts (sortEnts entries) := by
  unfold push_ents_string
  rcases h : sortEnts entries with _ | ⟨e, rest⟩
  · rfl
  · have h0 : (("" : String).isEmpty) = true := rfl
    have hstep : (if ("" : String).isEmpty = true then ("" : String) else "" ++ "\x00\x00")
        ++ entRecord e = entRecord e := by rw [if_pos h0]; simp
    calc (e :: rest).foldl _ ""
        = rest.foldl _ (entRecord e) := by simp only [List.foldl_cons, hstep]
      _ = entRecord e ++ prefixRecords rest :=
          foldl_push_records rest _ (entRecord_isEmpty_false e)
      _ = serializeEnts (e :: rest) := (serializeEnts_cons_eq e rest).symm

theorem entLe_name_le {a b : DirEnt} (h : entLe a b) : a.name ≤ b.name := by
  unfold entLe DirEnt.key at h
  rcases (Prod.Lex.le_iff _ _).1 h with h1 | ⟨h1, _⟩
  · exact le_of_lt h1
  · exact le_of_eq h1

/-- C1: the directory encoder sorts the entries (by name, ties broken by the
remaining fields in declaration order), joins the per-entry records with two
NUL bytes — each record being the NUL-separated fields in the order
name, etype, size, content, mode, uid, gid, mtime, atime, ctime — and pushes
the bytes of that string as the directory's chunk, returning its hash and byte
length.  (The claim's field order, content before size, is refuted separately.) -/
theorem C1_push_ents_serialization (entries : List DirEnt) (env : Env) (st : ClientState) :
    push_ents_string entries = serializeEnts (sortEnts entries) ∧
    (sortEnts entries).Perm entries ∧
    List.Pairwise (fun a b : DirEnt => a.name ≤ b.name) (sortEnts entries) ∧
    push_ents env st entries =
      (push_chunk env st (strBytes (push_ents_string entries))).map
        (fun r => ((r.1, (strBytes (push_ents_string entries)).length), r.2)) := by
  refine ⟨push_ents_string_eq entries, List.perm_insertionSort entLe entries, ?_, ?_⟩
  · exact (List.sorted_insertionSort entLe entries).imp (fun h => entLe_name_le h)
  · rcases h : push_chunk env st (strBytes (push_ents_string entries)) with e | ⟨hh, st2, effs⟩
    · simp [push_ents, h, Except.map]
    · simp [push_ents, h, Except.map]

/-- C1 counterexample: for the entry `(name "a", File, content "c", size 1, 0…)`
the encoder emits `size` before `content` (`…\0 1 \0 c \0…`), not `content`
before `size` as the claim's field order asserts. -/
theorem C1_counterexample :
    push_ents_string [⟨"a", .File, "c", 1, 0, 0, 0, 0, 0, 0⟩] ≠
      claimOrderSerialize [⟨"a", .File, "c", 1, 0, 0, 0, 0, 0, 0⟩] := by decide

/-! Concrete instances shared by counterexamples and witnesses. -/

/-- A valid 64-hex bucket identifier. -/
def cBucket : String := String.mk (List.replicate 64 'b')

/-- A valid 64-hex chunk hash. -/
def cHash : String := String.mk (List.replicate 64 'c')

/-- A second valid 64-hex chunk hash. -/
def cHash2 : String := String.mk (List.replicate 64 'd')

/-- A third valid 64-hex chunk hash. -/
def cHash3 : String := String.mk (List.replicate 64 'e')

/-- A server configuration with one `Put`-level user. -/
def cfgPut : ServerConfig := ⟨[⟨"u", "p", .Put⟩], "d", 128⟩

/-- A server configuration with one `Delete`-level user. -/
def cfgDel : ServerConfig := ⟨[⟨"u", "p", .Delete⟩], "d", 128⟩

/-- A server holding one inline chunk in `cBucket` and delete epoch 100. -/
def stChunk : ServerState := ⟨[⟨cBucket, cHash, 3, 50, some [9]⟩], [(cBucket, 100)], [], []⟩

/-! ## C2: authorization ordering -/

theorem handle_get_chunk_status_of_auth (cfg : ServerConfig) (auth : Option (String × String))
    (bucket chunk : String) (st : ServerState) (head : Bool)
    (hauth : check_auth cfg.users auth (if head then AccessType.Put else AccessType.Get) = true) :
    (handle_get_chunk cfg auth bucket chunk st head).status ≠ 401 := by
  unfold handle_get_chunk
  rw [hauth]
  simp only [Bool.not_true, Bool.false_eq_true, if_false]
  repeat' split
  all_goals simp

theorem handle_get_chunk_401_of_no_auth (cfg : ServerConfig) (auth : Option (String × String))
    (bucket chunk : String) (st : ServerState) (head : Bool)
    (hauth : check_auth cfg.users auth (if head then AccessType.Put else AccessType.Get) = false) :
    (handle_get_chunk cfg auth bucket chunk st head).status = 401 := by
  unfold handle_get_chunk
  rw [hauth]
  rfl

theorem handle_put_chunk_status_of_auth (cfg : ServerConfig) (auth : Option (String × String))
    (bucket chunk : String) (body : List Nat) (now : Int) (st : ServerState)
    (hauth : check_auth cfg.users auth AccessType.Put = true) :
    (handle_put_chunk cfg auth bucket chunk body now st).1.status ≠ 401 := by
  unfold handle_put_chunk
  rw [hauth]
  simp only [Bool.not_true, Bool.false_eq_true, if_false]
  repeat' split
  all_goals simp [okMessage]

theorem handle_put_chunk_401_of_no_auth (cfg : ServerConfig) (auth : Option (String × String))
    (bucket chunk : String) (body : List Nat) (now : Int) (st : ServerState)
    (hauth : check_auth cfg.users auth AccessType.Put = false) :
    (handle_put_chunk cfg auth bucket chunk body now st).1.status = 401 := by
  unfold handle_put_chunk
  rw [hauth]
  rfl

theorem check_auth_single (n p : String) (lvl level : AccessType) :
    check_auth [⟨n, p, lvl⟩] (some (n, p)) level = decide (level.rank ≤ lvl.rank) := by
  simp [check_auth]

/-- C2 (amended): under `Get < Put < Delete` with a request authorized iff the
user's level is at least the operation's level, a `Put` user can HEAD, GET and
PUT a chunk (HEAD requires `Put`, GET requires `Get ≤ Put`, PUT requires
`Put`); a `Get` user can GET but is refused (401) on HEAD and on PUT; a
`Delete` user can do all three. -/
theorem C2_auth_ordering (n p bucket chunk : String) (body : List Nat) (now : Int)
    (st : ServerState) (dd : String) (ss : Nat) (lvl : AccessType) :
    (lvl = AccessType.Put →
      (handle_get_chunk ⟨[⟨n, p, lvl⟩], dd, ss⟩ (some (n, p)) bucket chunk st true).status ≠ 401 ∧
      (handle_get_chunk ⟨[⟨n, p, lvl⟩], dd, ss⟩ (some (n, p)) bucket chunk st false).status ≠ 401 ∧
      (handle_put_chunk ⟨[⟨n, p, lvl⟩], dd, ss⟩ (some (n, p)) bucket chunk body now st).1.status ≠ 401) ∧
    (lvl = AccessType.Get →
      (handle_get_chunk ⟨[⟨n, p, lvl⟩], dd, ss⟩ (some (n, p)) bucket chunk st false).status ≠ 401 ∧
      (handle_get_chunk ⟨[⟨n, p, lvl⟩], dd, ss⟩ (some (n, p)) bucket chunk st true).status = 401 ∧
      (handle_put_chunk ⟨[⟨n, p, lvl⟩], dd, ss⟩ (some (n, p)) bucket chunk body now st).1.status = 401) ∧
    (lvl = AccessType.Delete →
      (handle_get_chunk ⟨[⟨n, p, lvl⟩], dd, ss⟩ (some (n, p)) bucket chunk st true).status ≠ 401 ∧
      (handle_get_chunk ⟨[⟨n, p, lvl⟩], dd, ss⟩ (some (n, p)) bucket chunk st false).status ≠ 401 ∧
      (handle_put_chunk ⟨[⟨n, p, lvl⟩], dd, ss⟩ (some (n, p)) bucket chunk body now st).1.status ≠ 401) := by
  refine ⟨fun hl => ?_, fun hl => ?_, fun hl => ?_⟩ <;> subst hl
  · exact ⟨handle_get_chunk_status_of_auth _ _ _ _ _ _ (by rw [if_pos rfl, check_auth_single]; rfl),
      handle_get_chunk_status_of_auth _ _ _ _ _ _ (by rw [if_neg (by simp), check_auth_single]; rfl),
      handle_put_chunk_status_of_auth _ _ _ _ _ _ _ (by rw [check_auth_single]; rfl)⟩
  · exact ⟨handle_get_chunk_status_of_auth _ _ _ _ _ _ (by rw [if_neg (by simp), check_auth_single]; rfl),
      handle_get_chunk_401_of_no_auth _ _ _ _ _ _ (by rw [if_pos rfl, check_auth_single]; rfl),
      handle_put_chunk_401_of_no_auth _ _ _ _ _ _ _ (by rw [check_auth_single]; rfl)⟩
  · exact ⟨handle_get_chunk_status_of_auth _ _ _ _ _ _ (by rw [if_pos rfl, check_auth_single]; rfl),
      handle_get_chunk_status_of_auth _ _ _ _ _ _ (by rw [if_neg (by simp), check_auth_single]; rfl),
      handle_put_chunk_status_of_auth _ _ _ _ _ _ _ (by rw [check_auth_single]; rfl)⟩

/-- C2 witness: the amended ordering at a concrete configuration and state. -/
theorem C2_auth_ordering_witness :
    ((handle_get_chunk ⟨[⟨"u", "p", .Put⟩], "d", 128⟩ (some ("u", "p")) cBucket cHash stChunk true).status ≠ 401 ∧
      (handle_get_chunk ⟨[⟨"u", "p", .Put⟩], "d", 128⟩ (some ("u", "p")) cBucket cHash stChunk false).status ≠ 401 ∧
      (handle_put_chunk ⟨[⟨"u", "p", .Put⟩], "d", 128⟩ (some ("u", "p")) cBucket cHash [1] 5 stChunk).1.status ≠ 401) ∧
    ((handle_get_chunk ⟨[⟨"u", "p", .Get⟩], "d", 128⟩ (some ("u", "p")) cBucket cHash stChunk false).status ≠ 401 ∧
      (handle_get_chunk ⟨[⟨"u", "p", .Get⟩], "d", 128⟩ (some ("u", "p")) cBucket cHash stChunk true).status = 401 ∧
      (handle_put_chunk ⟨[⟨"u", "p", .Get⟩], "d", 128⟩ (some ("u", "p")) cBucket cHash [1] 5 stChunk).1.status = 401) ∧
    ((handle_get_chunk ⟨[⟨"u", "p", .Delete⟩], "d", 128⟩ (some ("u", "p")) cBucket cHash stChunk true).status ≠ 401 ∧
      (handle_get_chunk ⟨[⟨"u", "p", .Delete⟩], "d", 128⟩ (some ("u", "p")) cBucket cHash stChunk false).status ≠ 401 ∧
      (handle_put_chunk ⟨[⟨"u", "p", .Delete⟩], "d", 128⟩ (some ("u", "p")) cBucket cHash [1] 5 stChunk).1.status ≠ 401) :=
  ⟨(C2_auth_ordering "u" "p" cBucket cHash [1] 5 stChunk "d" 128 .Put).1 rfl,
   (C2_auth_ordering "u" "p" cBucket cHash [1] 5 stChunk "d" 128 .Get).2.1 rfl,
   (C2_auth_ordering "u" "p" cBucket cHash [1] 5 stChunk "d" 128 .Delete).2.2 rfl⟩

/-- C2 counterexample: a user whose access level is exactly `Put` does NOT
receive 401 on `GET /chunks/{b}/{h}` — at this concrete state the GET
succeeds with 200, because `Put ≥ Get` authorizes it. -/
theorem C2_counterexample :
    (handle_get_chunk ⟨[⟨"u", "p", .Put⟩], "d", 128⟩ (some ("u", "p"))
        cBucket cHash stChunk false).status = 200 := by decide

/-! ## C3 / C4: delete epoch and bulk delete -/

theorem do_delete_chunks_state (cfg : ServerConfig) (bucket : String) (l : List String)
    (now : Int) (st : ServerState) (hne : l ≠ []) :
    (do_delete_chunks cfg bucket l now st).2.deletes = replaceDelete st.deletes bucket now ∧
    (do_delete_chunks cfg bucket l now st).2.chunks =
      st.chunks.filter (fun r => !(r.bucket == bucket && l.contains r.hash)) := by
  obtain ⟨c, l2, rfl⟩ := List.exists_cons_of_ne_nil hne
  unfold do_delete_chunks
  rw [if_neg (by simp)]
  dsimp only
  split
  · exact ⟨rfl, rfl⟩
  · exact ⟨rfl, rfl⟩

theorem statusTime_replaceDelete (st : ServerState) (d : List (String × Int))
    (bucket : String) (now : Int) (h : st.deletes = replaceDelete d bucket now) :
    statusTime st bucket = now := by
  unfold statusTime
  rw [h]
  unfold replaceDelete
  rw [List.find?_cons_of_pos _ (by simp)]
  rfl

/-- C3 (amended): any non-empty `DELETE /chunks` on bucket `b` — successful or
partially applied — sets the delete epoch to the delete's own timestamp, so a
subsequent `GET /status/{b}` returns exactly that timestamp; the value is
strictly larger than before precisely when the delete's timestamp exceeds the
previous epoch (a delete within the same clock second leaves it unchanged). -/
theorem C3_delete_epoch (cfg : ServerConfig) (auth : Option (String × String))
    (bucket : String) (l : List String) (now : Int) (st : ServerState)
    (hne : l ≠ [])
    (hauth : check_auth cfg.users auth AccessType.Put = true)
    (hb : check_hash bucket = true) :
    statusTime (do_delete_chunks cfg bucket l now st).2 bucket = now ∧
    (statusTime st bucket < now →
      statusTime st bucket < statusTime (do_delete_chunks cfg bucket l now st).2 bucket) ∧
    (handle_get_status cfg auth bucket (do_delete_chunks cfg bucket l now st).2).body
      = toString now := by
  have h1 := statusTime_replaceDelete _ _ _ _ (do_delete_chunks_state cfg bucket l now st hne).1
  refine ⟨h1, fun hlt => by rw [h1]; exact hlt, ?_⟩
  unfold handle_get_status
  rw [hauth, hb]
  simp [h1]

/-- C3 witness: the amended statement at a concrete delete whose timestamp 200
exceeds the prior epoch 100. -/
theorem C3_delete_epoch_witness :
    statusTime (do_delete_chunks cfgDel cBucket [cHash] 200 stChunk).2 cBucket = 200 ∧
    (statusTime stChunk cBucket < 200 →
      statusTime stChunk cBucket < statusTime (do_delete_chunks cfgDel cBucket [cHash] 200 stChunk).2 cBucket) ∧
    (handle_get_status cfgDel (some ("u", "p")) cBucket
        (do_delete_chunks cfgDel cBucket [cHash] 200 stChunk).2).body = toString (200 : Int) :=
  C3_delete_epoch cfgDel (some ("u", "p")) cBucket [cHash] 200 stChunk
    (by decide) (by decide) (by decide)

/-- C3 counterexample: a bulk delete executed in the same clock second as the
previous delete epoch (both 100) fully succeeds (200), yet `GET /status`
returns `100` before and after — not a strictly larger value. -/
theorem C3_counterexample :
    (do_delete_chunks cfgDel cBucket [cHash] 100 stChunk).1.status = 200 ∧
    (handle_get_status cfgDel (some ("u", "p")) cBucket stChunk).body = "100" ∧
    (handle_get_status cfgDel (some ("u", "p")) cBucket
        (do_delete_chunks cfgDel cBucket [cHash] 100 stChunk).2).body = "100" ∧
    ¬ (statusTime stChunk cBucket <
        statusTime (do_delete_chunks cfgDel cBucket [cHash] 100 stChunk).2 cBucket) := by
  decide

theorem bulk_delete_count_lt (bucket : String) (l : List String) (st : ServerState)
    (hwf : st.chunks.Pairwise (fun r s => r.bucket ≠ s.bucket ∨ r.hash ≠ s.hash))
    (hnd : l.Nodup) (c : String) (hcl : c ∈ l)
    (hcnone : chunkLookup st bucket c = none) :
    (st.chunks.filter (fun r => r.bucket == bucket && l.contains r.hash)).length
      < l.length := by
  have hfind := List.find?_eq_none.1 hcnone
  have hph : List.Pairwise (fun r s : ChunkRow => r.hash ≠ s.hash)
      (st.chunks.filter (fun r => r.bucket == bucket && l.contains r.hash)) := by
    have h1 := List.Pairwise.sublist
      (List.filter_sublist st.chunks (p := fun r => r.bucket == bucket && l.contains r.hash)) hwf
    refine h1.imp_of_mem ?_
    intro a b ha hb hab
    have hpa := (List.mem_filter.1 ha).2
    have hpb := (List.mem_filter.1 hb).2
    rw [Bool.and_eq_true, beq_iff_eq] at hpa hpb
    rcases hab with h | h
    · exact absurd (hpa.1.trans hpb.1.symm) h
    · exact h
  have hnodup : ((st.chunks.filter
      (fun r => r.bucket == bucket && l.contains r.hash)).map (fun r => r.hash)).Nodup :=
    List.pairwise_map.2 hph
  have hsub : ((st.chunks.filter
      (fun r => r.bucket == bucket && l.contains r.hash)).map (fun r => r.hash))
      ⊆ l.erase c := by
    intro x hx
    obtain ⟨r, hr, rfl⟩ := List.mem_map.1 hx
    obtain ⟨hrs, hp⟩ := List.mem_filter.1 hr
    rw [Bool.and_eq_true, beq_iff_eq] at hp
    have hxl : r.hash ∈ l := by simpa using hp.2
    have hxc : r.hash ≠ c := by
      intro hcon
      have := hfind r hrs
      rw [Bool.and_eq_true, beq_iff_eq, beq_iff_eq] at this
      exact this ⟨hp.1, hcon⟩
    exact List.mem_erase_of_ne hxc |>.2 hxl
  have hle := (hnodup.subperm hsub).length_le
  rw [List.length_map] at hle
  have herase := List.length_erase_of_mem hcl
  have hpos := List.length_pos_of_mem hcl
  omega

/-- C4: a bulk `DELETE /chunks/{b}` listing `n` distinct valid hashes of which
at least one is absent from the bucket answers 404, yet removes every listed
chunk that was present, and replaces the bucket's delete epoch with the
delete's timestamp; afterwards none of the listed chunks remains. -/
theorem C4_bulk_delete (cfg : ServerConfig) (bucket : String) (l : List String)
    (now : Int) (st : ServerState)
    (hwf : st.chunks.Pairwise (fun r s => r.bucket ≠ s.bucket ∨ r.hash ≠ s.hash))
    (hnd : l.Nodup)
    (habs : ∃ c ∈ l, chunkLookup st bucket c = none) :
    (do_delete_chunks cfg bucket l now st).1.status = 404 ∧
    (do_delete_chunks cfg bucket l now st).2.chunks =
      st.chunks.filter (fun r => !(r.bucket == bucket && l.contains r.hash)) ∧
    statusTime (do_delete_chunks cfg bucket l now st).2 bucket = now ∧
    ∀ c ∈ l, chunkLookup (do_delete_chunks cfg bucket l now st).2 bucket c = none := by
  obtain ⟨c, hcl, hcnone⟩ := habs
  have hne : l ≠ [] := fun h => by subst h; exact absurd hcl (List.not_mem_nil c)
  have hstate := do_delete_chunks_state cfg bucket l now st hne
  have hlt := bulk_delete_count_lt bucket l st hwf hnd c hcl hcnone
  refine ⟨?_, hstate.2, statusTime_replaceDelete _ _ _ _ hstate.1, ?_⟩
  · obtain ⟨c0, l2, rfl⟩ := List.exists_cons_of_ne_nil hne
    unfold do_delete_chunks
    rw [if_neg (by simp)]
    dsimp only
    rw [if_pos (Nat.ne_of_lt hlt)]
  · intro c2 hc2
    rw [chunkLookup, hstate.2]
    refine List.find?_eq_none.2 ?_
    intro r hr
    obtain ⟨hrs, hnp⟩ := List.mem_filter.1 hr
    intro hcon
    rw [Bool.and_eq_true, beq_iff_eq, beq_iff_eq] at hcon
    rw [Bool.not_eq_eq_eq_not, Bool.not_true, Bool.and_eq_false_iff] at hnp
    rcases hnp with h | h
    · simp [hcon.1] at h
    · have hmem : l.elem r.hash = true := List.elem_iff.2 (hcon.2 ▸ hc2)
      have hmem2 : List.contains l r.hash = true := hmem
      rw [hmem2] at h
      exact Bool.noConfusion h

/-- A server state for the C4 witness: `cHash` inline and `cHash2` external in
`cBucket`, nothing else. -/
def stTwoChunks : ServerState :=
  ⟨[⟨cBucket, cHash, 3, 50, some [9]⟩, ⟨cBucket, cHash2, 4, 51, none⟩], [], [],
    [(chunk_path "d" cBucket cHash2, [7])]⟩

/-- C4 witness: deleting `[cHash, cHash2, cHash3]` where `cHash3` is absent
returns 404, removes the two present chunks, and sets the epoch to 100. -/
theorem C4_bulk_delete_witness :
    (do_delete_chunks cfgDel cBucket [cHash, cHash2, cHash3] 100 stTwoChunks).1.status = 404 ∧
    (do_delete_chunks cfgDel cBucket [cHash, cHash2, cHash3] 100 stTwoChunks).2.chunks =
      stTwoChunks.chunks.filter
        (fun r => !(r.bucket == cBucket && [cHash, cHash2, cHash3].contains r.hash)) ∧
    statusTime (do_delete_chunks cfgDel cBucket [cHash, cHash2, cHash3] 100 stTwoChunks).2 cBucket = 100 ∧
    ∀ c ∈ [cHash, cHash2, cHash3],
      chunkLookup (do_delete_chunks cfgDel cBucket [cHash, cHash2, cHash3] 100 stTwoChunks).2 cBucket c = none :=
  C4_bulk_delete cfgDel cBucket [cHash, cHash2, cHash3] 100 stTwoChunks
    (by decide) (by decide) ⟨cHash3, by decide, by decide⟩

/-! ## C5: has_chunk protocol -/

/-- C5: `has_chunk` returns `YesCached` purely from the cache when a `remote`
row newer than the delete epoch exists (no network request in the returned
effect log); returns `No` without network when a size below 16 KiB was
supplied; otherwise HEADs the chunk and maps 200 to `Yes`, 404 to `No`, and
fails with `HttpStatus` on any other status.  The final conjunct records that
the cache-only logs contain no network effect. -/
theorem C5_has_chunk (env : Env) (st : ClientState) (chunk : String) (sizeOpt : Option Nat) :
    (remoteCount st chunk = 1 →
      has_chunk env st chunk sizeOpt = .ok (.YesCached, [.queryRemote chunk])) ∧
    (remoteCount st chunk ≠ 1 → ∀ s, sizeOpt = some s → s < 1024 * 16 →
      has_chunk env st chunk sizeOpt = .ok (.No, [.queryRemote chunk])) ∧
    (remoteCount st chunk ≠ 1 →
      (sizeOpt = none ∨ ∃ s, sizeOpt = some s ∧ 1024 * 16 ≤ s) →
      ((env.headStatus chunk = 200 →
          has_chunk env st chunk sizeOpt = .ok (.Yes, [.queryRemote chunk, .headReq chunk])) ∧
       (env.headStatus chunk = 404 →
          has_chunk env st chunk sizeOpt = .ok (.No, [.queryRemote chunk, .headReq chunk])) ∧
       (env.headStatus chunk ≠ 200 → env.headStatus chunk ≠ 404 →
          has_chunk env st chunk sizeOpt = .error (.HttpStatus (env.headStatus chunk))))) ∧
    ([Eff.queryRemote chunk].all (fun e => !e.isNetwork) = true) := by
  refine ⟨fun h1 => ?_, fun h1 s hs hlt => ?_, fun h1 hbig => ?_, rfl⟩
  · unfold has_chunk
    rw [if_pos h1]
  · unfold has_chunk
    rw [if_neg h1]
    subst hs
    have hsz : ((some s).map (fun s => decide (s < 1024 * 16))).getD false = true := by
      simp [hlt]
    rw [hsz]
    rfl
  · have hsz : (sizeOpt.map (fun s => decide (s < 1024 * 16))).getD false = false := by
      rcases hbig with rfl | ⟨s, rfl, hs⟩
      · rfl
      · simp [decide_eq_false_iff_not]
        omega
    refine ⟨fun h200 => ?_, fun h404 => ?_, fun h200 h404 => ?_⟩
    · unfold has_chunk
      rw [if_neg h1, hsz, h200]
      rfl
    · unfold has_chunk
      rw [if_neg h1, hsz, h404]
      rfl
    · unfold has_chunk
      rw [if_neg h1, hsz]
      simp only [Bool.false_eq_true, if_false]

/-- A concrete environment for witnesses: hashing always yields `cHash`,
HEAD answers 404, PUT answers 200, the clock reads 7. -/
def envW : Env := ⟨fun _ => cHash, fun _ c => c, [1, 2], fun _ => 404, fun _ => 200, 7⟩

/-- A concrete client state for witnesses: a `remote` row for `cHash` at time
5, delete epoch 0, transfer pass, a progress bar at 0. -/
def stW : ClientState := ⟨[(cHash, 5)], [], 0, false, false, 0, some 0⟩

/-- C5 witness: at `stW` the row `(cHash, 5)` beats the epoch 0, so
`has_chunk` answers `YesCached` from the cache alone. -/
theorem C5_has_chunk_witness :
    has_chunk envW stW cHash none = .ok (.YesCached, [.queryRemote cHash]) :=
  (C5_has_chunk envW stW cHash none).1 (by decide)

/-! ## C6 / C7: push_chunk and the remote-row refresh -/

theorem push_chunk_error (env : Env) (st : ClientState) (content : List Nat) (e : Err)
    (heq : has_chunk env st (env.seedHash content) (some content.length) = .error e) :
    push_chunk env st content = .error e := by
  unfold push_chunk
  dsimp only
  rw [heq]

theorem push_chunk_yesCached (env : Env) (st : ClientState) (content : List Nat)
    (effs : List Eff)
    (heq : has_chunk env st (env.seedHash content) (some content.length)
      = .ok (.YesCached, effs)) :
    push_chunk env st content = .ok (env.seedHash content,
      { st with progress := st.progress.map (fun p => p + content.length) },
      Eff.hashed content :: effs) := by
  unfold push_chunk
  dsimp only
  rw [heq]
  simp

theorem push_chunk_yes (env : Env) (st : ClientState) (content : List Nat)
    (effs : List Eff)
    (heq : has_chunk env st (env.seedHash content) (some content.length)
      = .ok (.Yes, effs)) :
    push_chunk env st content = .ok (env.seedHash content,
      { updateRemote st (env.seedHash content) env.now with
          progress := st.progress.map (fun p => p + content.length) },
      Eff.hashed content :: effs) := by
  unfold push_chunk
  dsimp only
  rw [heq]
  simp [updateRemote]

theorem push_chunk_no_ok (env : Env) (st : ClientState) (content : List Nat)
    (effs : List Eff)
    (heq : has_chunk env st (env.seedHash content) (some content.length)
      = .ok (.No, effs))
    (hput : env.putStatus (env.seedHash content) = 200 ∨
            env.putStatus (env.seedHash content) = 409) :
    push_chunk env st content = .ok (env.seedHash content,
      { updateRemote st (env.seedHash content) env.now with
          progress := st.progress.map (fun p => p + content.length) },
      Eff.hashed content :: effs ++
        [Eff.putReq (env.seedHash content) (env.nonce ++ env.encrypt env.nonce content)]) := by
  unfold push_chunk
  dsimp only
  rw [heq]
  rcases hput with h | h
  · rw [h]
    simp [updateRemote]
  · rw [h]
    simp [updateRemote]

theorem push_chunk_no_fail (env : Env) (st : ClientState) (content : List Nat)
    (effs : List Eff)
    (heq : has_chunk env st (env.seedHash content) (some content.length)
      = .ok (.No, effs))
    (h200 : env.putStatus (env.seedHash content) ≠ 200)
    (h409 : env.putStatus (env.seedHash content) ≠ 409) :
    push_chunk env st content = .error (.HttpStatus (env.putStatus (env.seedHash content))) := by
  unfold push_chunk
  dsimp only
  rw [heq]
  simp

/-- C6: `push_chunk` hashes the plaintext and consults `has_chunk`.  On `No`
it PUTs `nonce ++ ciphertext`, treating 200 and 409 CONFLICT as success and
failing on anything else; on every successful run whose `has_chunk` outcome is
not `YesCached` the `remote` row is replaced with the current time; the
progress position advances by the plaintext length, never the ciphertext
length. -/
theorem C6_push_chunk (env : Env) (st : ClientState) (content : List Nat) :
    (∀ effs, has_chunk env st (env.seedHash content) (some content.length) = .ok (.No, effs) →
      ((env.putStatus (env.seedHash content) = 200 ∨ env.putStatus (env.seedHash content) = 409) →
        push_chunk env st content = .ok (env.seedHash content,
          { updateRemote st (env.seedHash content) env.now with
              progress := st.progress.map (fun p => p + content.length) },
          Eff.hashed content :: effs ++
            [Eff.putReq (env.seedHash content) (env.nonce ++ env.encrypt env.nonce content)])) ∧
      (env.putStatus (env.seedHash content) ≠ 200 → env.putStatus (env.seedHash content) ≠ 409 →
        push_chunk env st content = .error (.HttpStatus (env.putStatus (env.seedHash content))))) ∧
    (∀ effs, has_chunk env st (env.seedHash content) (some content.length) = .ok (.Yes, effs) →
      push_chunk env st content = .ok (env.seedHash content,
        { updateRemote st (env.seedHash content) env.now with
            progress := st.progress.map (fun p => p + content.length) },
        Eff.hashed content :: effs)) ∧
    (∀ effs, has_chunk env st (env.seedHash content) (some content.length) = .ok (.YesCached, effs) →
      push_chunk env st content = .ok (env.seedHash content,
        { st with progress := st.progress.map (fun p => p + content.length) },
        Eff.hashed content :: effs)) ∧
    (∀ e, has_chunk env st (env.seedHash content) (some content.length) = .error e →
      push_chunk env st content = .error e) :=
  ⟨fun effs heq => ⟨push_chunk_no_ok env st content effs heq,
      push_chunk_no_fail env st content effs heq⟩,
   fun effs heq => push_chunk_yes env st content effs heq,
   fun effs heq => push_chunk_yesCached env st content effs heq,
   fun e heq => push_chunk_error env st content e heq⟩

/-- A concrete client state for the C6 witness: empty caches, transfer pass,
progress bar at 0. -/
def stEmptyCache : ClientState := ⟨[], [], 0, false, false, 0, some 0⟩

/-- C6 witness: pushing the one-byte plaintext `[5]` at `stEmptyCache` (cache
miss, size below 16 KiB so `has_chunk` answers `No`, PUT answers 200) uploads
`nonce ++ ciphertext`, refreshes the `remote` row and advances progress by 1. -/
theorem C6_push_chunk_witness :
    push_chunk envW stEmptyCache [5] = .ok (cHash,
      { updateRemote stEmptyCache cHash 7 with
          progress := stEmptyCache.progress.map (fun p => p + [5].length) },
      Eff.hashed [5] :: [Eff.queryRemote cHash] ++
        [Eff.putReq cHash (envW.nonce ++ envW.encrypt envW.nonce [5])]) :=
  ((C6_push_chunk envW stEmptyCache [5]).1 [Eff.queryRemote cHash]
    (by decide)).1 (Or.inl (by decide))

theorem backup_file_fast_path (env : Env) (st : ClientState) (path : String)
    (size : Nat) (mtime : Int) (data : List Nat) (cs : String) (effs : List Eff)
    (hsz : size ≠ 0) (hrc : st.recheck = false)
    (hlook : filesLookup st path size mtime = some cs)
    (hchk : checkCachedChunks env st (splitChar ',' cs) = .ok (true, effs)) :
    backup_file env st path size mtime data = .ok (cs, st, Eff.queryFiles path :: effs) := by
  unfold backup_file
  rw [if_neg hsz, hrc]
  simp only [Bool.false_eq_true, if_false, hlook]
  rw [hchk]
  simp

/-- C7 (amended): after a network probe that returns `Yes` inside
`push_chunk`, the `remote` row for the hash is replaced with the current time;
but the fast-path validation of a cached chunk list in `backup_file` returns
with the client state unchanged — it does NOT refresh the `remote` rows of the
chunks it probed. -/
theorem C7_remote_refresh (env : Env) (st : ClientState) (content : List Nat)
    (path : String) (size : Nat) (mtime : Int) (data : List Nat)
    (cs : String) (effs : List Eff) :
    (∀ effs2, has_chunk env st (env.seedHash content) (some content.length) = .ok (.Yes, effs2) →
      ∃ log, push_chunk env st content = .ok (env.seedHash content,
          { updateRemote st (env.seedHash content) env.now with
              progress := st.progress.map (fun p => p + content.length) }, log) ∧
        (updateRemote st (env.seedHash content) env.now).remote.find?
            (fun r => r.1 == env.seedHash content)
          = some (env.seedHash content, env.now)) ∧
    (size ≠ 0 → st.recheck = false →
      filesLookup st path size mtime = some cs →
      checkCachedChunks env st (splitChar ',' cs) = .ok (true, effs) →
      backup_file env st path size mtime data = .ok (cs, st, Eff.queryFiles path :: effs)) := by
  constructor
  · intro effs2 heq
    refine ⟨Eff.hashed content :: effs2, push_chunk_yes env st content effs2 heq, ?_⟩
    unfold updateRemote
    rw [List.find?_cons_of_pos _ (by simp)]
  · intro hsz hrc hlook hchk
    exact backup_file_fast_path env st path size mtime data cs effs hsz hrc hlook hchk

/-- A client state whose `files` cache knows `/f` at `(size 5, mtime 1)` with
chunk list `cHash`, but whose `remote` cache is empty. -/
def stFastPath : ClientState := ⟨[], [⟨"/f", 5, 1, cHash⟩], 0, false, false, 0, none⟩

/-- An environment whose HEAD probe answers 200, so `has_chunk` returns `Yes`. -/
def envHead200 : Env := ⟨fun _ => cHash, fun _ c => c, [1, 2], fun _ => 200, fun _ => 200, 7⟩

/-- A 16 KiB plaintext, large enough that `has_chunk` issues a HEAD probe. -/
def cBig : List Nat := List.replicate 16384 0

/-- C7 witness: both halves of the amended claim at concrete inputs —
`push_chunk` after a probe-Yes holds a refreshed `remote` row, and the
fast-path `backup_file` run returns the state unchanged. -/
theorem C7_remote_refresh_witness :
    (∃ log, push_chunk envHead200 stFastPath cBig = .ok (cHash,
        { updateRemote stFastPath cHash 7 with
            progress := stFastPath.progress.map (fun p => p + cBig.length) }, log) ∧
      (updateRemote stFastPath cHash 7).remote.find? (fun r => r.1 == cHash)
        = some (cHash, 7)) ∧
    backup_file envHead200 stFastPath "/f" 5 1 [] =
      .ok (cHash, stFastPath, Eff.queryFiles "/f" ::
        [Eff.queryRemote cHash, Eff.headReq cHash]) := by
  have h := C7_remote_refresh envHead200 stFastPath cBig "/f" 5 1 []
    cHash [Eff.queryRemote cHash, Eff.headReq cHash]
  refine ⟨h.1 [Eff.queryRemote cHash, Eff.headReq cHash] ?_,
    h.2 (by decide) (by decide) (by decide) (by decide)⟩
  have h0 : cBig.length = 16384 := by rw [cBig]; exact List.length_replicate _ _
  have h2 : envHead200.seedHash cBig = cHash := rfl
  rw [h0, h2]
  decide

/-- C7 counterexample: in the fast path of `backup_file`, `has_chunk` probes
`cHash` over the network (the `headReq` is in the log) and gets `Yes`
(HEAD answers 200), yet the returned state still has an empty `remote` table —
no row `(cHash, now)` was written. -/
theorem C7_counterexample :
    backup_file envHead200 stFastPath "/f" 5 1 [] =
      .ok (cHash, stFastPath,
        [Eff.queryFiles "/f", Eff.queryRemote cHash, Eff.headReq cHash]) ∧
    stFastPath.remote.find? (fun r => r.1 == cHash) = none := by
  constructor
  · decide
  · decide

/-! ## C8 / C9: scan placeholders and the empty file -/

/-- The scan-pass client state: empty caches, `recheck` on (so the cache fast
path is skipped), scan mode. -/
def stScanPass : ClientState := ⟨[], [], 0, true, true, 0, none⟩

/-- The matching transfer-pass state. -/
def stTransferPass : ClientState := ⟨[], [], 0, true, false, 0, none⟩

/-- C8: evaluation of the scan-mode placeholders at the failing input.  For a
32 MiB file the placeholder `"_".repeat(65 * (size + CHUNK_SIZE - 1) /
CHUNK_SIZE - 1)` has length 96 — the Rust expression divides `65 * (size +
CHUNK_SIZE - 1)` by `CHUNK_SIZE`, not `size + CHUNK_SIZE - 1` alone — while
the real transfer-mode content is one 64-character hash (the claimed
`65·⌈size/CHUNK_SIZE⌉ - 1 = 64`).  For a directory the scan placeholder is the
32-character zero string while the real content is a 64-character hash. -/
theorem C8_scan_placeholder_bug :
    backup_file envW stScanPass "/f" 33554432 1 [] =
      .ok (scanPlaceholder 33554432, { stScanPass with transferBytes := 33554432 }, []) ∧
    (scanPlaceholder 33554432).length = 96 ∧
    65 * ((33554432 + CHUNK_SIZE - 1) / CHUNK_SIZE) - 1 = 64 ∧
    (scanPlaceholder 2).length = 64 ∧
    (backup_folder_finish envW stScanPass []).toOption.map (fun r => r.1.1.length)
      = some 32 ∧
    (backup_folder_finish envW stTransferPass []).toOption.map (fun r => r.1.1.length)
      = some 64 := by
  refine ⟨by decide, by decide, by decide, by decide, by decide, by decide⟩

/-- C9: a file of size 0 is answered with the sentinel content `"empty"`
immediately — the state is untouched and the effect log is empty, so no hash
is computed, nothing is uploaded, and the `files` cache is never consulted. -/
theorem C9_empty_file (env : Env) (st : ClientState) (path : String) (mtime : Int)
    (data : List Nat) :
    backup_file env st path 0 mtime data = .ok ("empty", st, []) := rfl

/-! ## C10: NUL byte in the root host segment -/

/-- C10: an authorized `PUT /roots/{bucket}/{host}` whose host segment
contains a NUL byte is rejected with `400 Bad host name` before the body is
examined — for every body and every decode outcome — and the server state
(in particular the `roots` table) is unchanged. -/
theorem C10_put_root_nul_host (cfg : ServerConfig) (auth : Option (String × String))
    (bucket host : String) (body : List Nat) (decode : List Nat → Option String)
    (now : Int) (newId : Nat) (st : ServerState)
    (hauth : check_auth cfg.users auth AccessType.Put = true)
    (hb : check_hash bucket = true)
    (hnul : host.data.contains (Char.ofNat 0) = true) :
    handle_put_root cfg auth bucket host body decode now newId st
      = (⟨400, "Bad host name", []⟩, st) := by
  unfold handle_put_root
  rw [hauth, hb, hnul]
  simp

/-- C10 witness: the `Put` user writing to host `"a\x00b"` of `cBucket` gets
400 and leaves the state unchanged, for a concrete body and decode. -/
theorem C10_put_root_nul_host_witness :
    handle_put_root cfgPut (some ("u", "p")) cBucket "a\x00b" [1, 2]
        (fun _ => some cHash) 5 0 stChunk
      = (⟨400, "Bad host name", []⟩, stChunk) :=
  C10_put_root_nul_host cfgPut (some ("u", "p")) cBucket "a\x00b" [1, 2]
    (fun _ => some cHash) 5 0 stChunk (by decide) (by decide) (by decide)

end MerkelBackup
